import Mathlib

/-!
Verification of the `my-agents` multi-agent pipeline example.

The repository's own code (`src/my-agents/main.go`) defines three agents
(Processor, Enhancer, Formatter) running over the agenticgokit framework.
The agents are embedded here directly from the Go source.  The framework
core (State container, Event, Router, Runner dispatch loop, Runner
lifecycle) is not part of the repository's sources; those parts are
modelled from the specification's reconstruction (spec.md sections 3, 4.2,
4.3 and 7) and are marked `Modelled from the spec:` in their doc comments.
-/

namespace AgenticPipeline

/-- A value stored in event data or state fields (Go `interface\x7b\x7d`):
either a string, or some non-string value left opaque. -/
inductive Value where
  | vstr (s : String)
  | vother
deriving DecidableEq, Repr

/-- Go `fmt.Sprintf` with verb `%v` applied to a value: a string prints
itself; for a non-string value the rendering is left opaque. -/
def Value.render : Value → String
  | .vstr s => s
  | .vother => "<value>"

/-- Modelled from the spec: the State container (spec.md section 3) is an
ordered key/value store carrying data fields and routing metadata, with
last-write-wins on key collision.  The framework type `core.State` is not
in src/.  A later write is placed in front and lookup takes the first hit,
which realises last-write-wins. -/
structure State where
  fields : List (String × Value)
  meta : List (String × String)
deriving DecidableEq, Repr

/-- Modelled from the spec: `core.NewState()`, the empty state. -/
def NewState : State := ⟨[], []⟩

/-- Modelled from the spec: `state.Get(key)` returns the latest value
written for `key`, if any. -/
def State.get (s : State) (k : String) : Option Value :=
  (s.fields.find? (fun p => p.1 = k)).map Prod.snd

/-- Modelled from the spec: `state.Set(key, value)`, last-write-wins. -/
def State.set (s : State) (k : String) (v : Value) : State :=
  { s with fields := (k, v) :: s.fields }

/-- Modelled from the spec: `state.GetMeta(key)` on the routing metadata. -/
def State.getMeta (s : State) (k : String) : Option String :=
  (s.meta.find? (fun p => p.1 = k)).map Prod.snd

/-- Modelled from the spec: `state.SetMeta(key, value)`, last-write-wins. -/
def State.setMeta (s : State) (k : String) (v : String) : State :=
  { s with meta := (k, v) :: s.meta }

/-- Modelled from the spec: an Event (spec.md section 3) is an
identifier-bearing envelope with input data and routing metadata,
immutable once created.  The framework type `core.Event` is not in src/. -/
structure Event where
  id : String
  data : List (String × Value)
  metadata : List (String × String)
deriving DecidableEq, Repr

/-- Modelled from the spec: `event.GetData()[key]` as a map lookup. -/
def Event.getData (e : Event) (k : String) : Option Value :=
  (e.data.find? (fun p => p.1 = k)).map Prod.snd

/-- Modelled from the spec: `event.GetID()`. -/
def Event.getID (e : Event) : String := e.id

/-- Modelled from the spec: lookup of a metadata key on the event, used by
the Runner to find the starting agent (spec.md section 4.3). -/
def Event.getMeta (e : Event) (k : String) : Option String :=
  (e.metadata.find? (fun p => p.1 = k)).map Prod.snd

/-- A prompt as built by the agents: `core.Prompt{System, User}`. -/
structure Prompt where
  system : String
  user : String
deriving DecidableEq, Repr

/-- A provider response: `core.Response{Content}`. -/
structure Response where
  content : String
deriving DecidableEq, Repr

/-- Error kinds from spec.md section 7.  The agents' own `fmt.Errorf`
failures for missing inputs are the spec's `ValidationError`; failures of
the external model provider are `CapabilityError`. -/
inductive AgentErr where
  | validation (msg : String)
  | capability (msg : String)
deriving DecidableEq, Repr

/-- The external model provider capability (spec.md section 6):
`Call(context, prompt) -> (response, error)`, Go's two-value return shape. -/
abbrev ModelProvider := Prompt → Response × Option AgentErr

/-- `core.AgentResult`: the output state produced by one agent hop. -/
structure AgentResult where
  outputState : State
deriving DecidableEq, Repr

/-- The Go zero value `core.AgentResult{}`: an empty output state. -/
def AgentResult.empty : AgentResult := ⟨NewState⟩

/-- Modelled from the spec: `core.RouteMetadataKey`, the reserved
routing-directive metadata key (spec.md section 3); the constant lives in
the framework, but main.go line 51 uses the literal "route" for it. -/
def RouteMetadataKey : String := "route"

/-- ProcessorAgent.Run, embedded from src/my-agents/main.go lines 84-111:
read the string "input" from the event data (failing with a validation
error if absent or not a string), call the provider with the processor
prompt, and on success write "processed" and "message" into a fresh state
and set the routing directive to "enhancer". -/
def processorRun (llm : ModelProvider) (event : Event) (state : State) :
    AgentResult × Option AgentErr :=
  match event.getData "input" with
  | some (.vstr input) =>
      match llm { system := "You are a processor agent. Extract and organize key information from user requests."
                  user := "Process this request and extract key information: " ++ input } with
      | (_, some err) => (AgentResult.empty, some err)
      | (response, none) =>
          ({ outputState :=
              (((NewState.set "processed" (.vstr response.content)).set
                "message" (.vstr response.content)).setMeta RouteMetadataKey "enhancer") },
           none)
  | _ => (AgentResult.empty, some (.validation "no input provided"))

/-- EnhancerAgent.Run, embedded from src/my-agents/main.go lines 113-144:
read "processed" from the state, falling back to "message" (failing with a
validation error if neither exists), call the provider with the enhancer
prompt, and on success write "enhanced" and "message" into a fresh state
and set the routing directive to "formatter". -/
def enhancerRun (llm : ModelProvider) (event : Event) (state : State) :
    AgentResult × Option AgentErr :=
  match (match state.get "processed" with
         | some v => some v
         | none => state.get "message") with
  | none => (AgentResult.empty, some (.validation "no processed data found"))
  | some v =>
      match llm { system := "You are an enhancer agent. Add insights, context, and additional valuable information."
                  user := "Enhance this response with additional insights: " ++ v.render } with
      | (_, some err) => (AgentResult.empty, some err)
      | (response, none) =>
          ({ outputState :=
              (((NewState.set "enhanced" (.vstr response.content)).set
                "message" (.vstr response.content)).setMeta RouteMetadataKey "formatter") },
           none)

/-- FormatterAgent.Run, embedded from src/my-agents/main.go lines 146-177:
read "enhanced" from the state, falling back to "message" (failing with a
validation error if neither exists), call the provider with the formatter
prompt, and on success write "final_response" and "message" into a fresh
state; no routing directive is set, so the pipeline ends after it. -/
def formatterRun (llm : ModelProvider) (event : Event) (state : State) :
    AgentResult × Option AgentErr :=
  match (match state.get "enhanced" with
         | some v => some v
         | none => state.get "message") with
  | none => (AgentResult.empty, some (.validation "no enhanced data found"))
  | some v =>
      match llm { system := "You are a formatter agent. Present information in a clear, professional, and well-structured manner."
                  user := "Format this response in a clear, professional manner: " ++ v.render } with
      | (_, some err) => (AgentResult.empty, some err)
      | (response, none) =>
          ({ outputState :=
              ((NewState.set "final_response" (.vstr response.content)).set
                "message" (.vstr response.content)) },
           none)

/-- The prompts ProcessorAgent.Run sends to the provider: exactly one call
when the input validation passes, none otherwise (the provider call on
main.go line 97 is only reached after the input check on lines 86-89). -/
def processorCalls (event : Event) (state : State) : List Prompt :=
  match event.getData "input" with
  | some (.vstr input) =>
      [{ system := "You are a processor agent. Extract and organize key information from user requests."
         user := "Process this request and extract key information: " ++ input }]
  | _ => []

/-- The prompts EnhancerAgent.Run sends to the provider: exactly one call
when an input field is found, none otherwise (main.go lines 115-130). -/
def enhancerCalls (event : Event) (state : State) : List Prompt :=
  match (match state.get "processed" with
         | some v => some v
         | none => state.get "message") with
  | none => []
  | some v =>
      [{ system := "You are an enhancer agent. Add insights, context, and additional valuable information."
         user := "Enhance this response with additional insights: " ++ v.render }]

/-- The prompts FormatterAgent.Run sends to the provider: exactly one call
when an input field is found, none otherwise (main.go lines 148-163). -/
def formatterCalls (event : Event) (state : State) : List Prompt :=
  match (match state.get "enhanced" with
         | some v => some v
         | none => state.get "message") with
  | none => []
  | some v =>
      [{ system := "You are a formatter agent. Present information in a clear, professional, and well-structured manner."
         user := "Format this response in a clear, professional manner: " ++ v.render }]

/-- Modelled from the spec: the Router (spec.md section 4.2).
`NextAgent(state)` reads the routing-directive metadata key; if present and
non-empty it returns that name (`hasNext = true`, here `some`); otherwise
the pipeline ends (`none`). -/
def nextAgent (state : State) : Option String :=
  match state.getMeta RouteMetadataKey with
  | some name => if name = "" then none else some name
  | none => none

/-- An agent's run function, the shape of `core.AgentHandler.Run` with the
provider dependency made explicit. -/
abbrev AgentFn := ModelProvider → Event → State → AgentResult × Option AgentErr

/-- Modelled from the spec: the registered-agent mapping (spec.md section
3), name to agent, fixed at startup. -/
abbrev Registry := List (String × AgentFn)

/-- Modelled from the spec: dispatch by key lookup in the registry. -/
def lookupAgent (reg : Registry) (name : String) : Option AgentFn :=
  match reg with
  | [] => none
  | (n, f) :: rest => if n = name then some f else lookupAgent rest name

/-- One recorded agent invocation of the dispatch loop: which agent ran,
the event it was handed, and the state it was handed. -/
structure Invocation where
  agentName : String
  event : Event
  stateIn : State
deriving DecidableEq, Repr

/-- Modelled from the spec: the outcome of one event's chain (spec.md
sections 4.3 and 7): completed, failed at some hop (tagged with the
originating agent and carrying the state accumulated before that hop),
unknown agent name, or the step-count guard exceeded (RoutingLoopError). -/
inductive RunResult where
  | completed (finalState : State) (hops : Nat)
  | failed (agentName : String) (err : AgentErr) (lastState : State) (hops : Nat)
  | unknownAgent (name : String) (lastState : State) (hops : Nat)
  | routingLoop (lastState : State) (hops : Nat)
deriving DecidableEq, Repr

/-- The hop count recorded in a run outcome. -/
def RunResult.hops : RunResult → Nat
  | .completed _ n => n
  | .failed _ _ _ n => n
  | .unknownAgent _ _ n => n
  | .routingLoop _ n => n

/-- Modelled from the spec: the Runner's per-event dispatch loop (spec.md
section 4.3): look the agent up by name (fail closed on a missing name),
invoke it, take the returned state as the new running state, consult the
Router, and repeat until the Router reports no next agent, an agent fails,
or the step budget (`fuel`) is exhausted, which is the RoutingLoopError
guard.  `hops` counts the hops already performed; the returned list
records every invocation performed, in order. -/
def dispatchFrom (reg : Registry) (llm : ModelProvider) (event : Event) :
    Nat → Nat → String → State → RunResult × List Invocation
  | 0, hops, _, st => (.routingLoop st hops, [])
  | fuel + 1, hops, name, st =>
      match lookupAgent reg name with
      | none => (.unknownAgent name st hops, [])
      | some agent =>
          match agent llm event st with
          | (_, some err) => (.failed name err st (hops + 1), [⟨name, event, st⟩])
          | (result, none) =>
              match nextAgent result.outputState with
              | none => (.completed result.outputState (hops + 1), [⟨name, event, st⟩])
              | some next =>
                  ((dispatchFrom reg llm event fuel (hops + 1) next result.outputState).fst,
                   ⟨name, event, st⟩ ::
                     (dispatchFrom reg llm event fuel (hops + 1) next result.outputState).snd)

/-- Modelled from the spec: run one emitted event through the chain
(spec.md section 4.3): the starting agent is looked up from the event's
routing metadata, the initial running state is empty, and the step budget
is the configured limit. -/
def runEvent (reg : Registry) (llm : ModelProvider) (limit : Nat) (event : Event) :
    RunResult × List Invocation :=
  match event.getMeta RouteMetadataKey with
  | some start => dispatchFrom reg llm event limit 0 start NewState
  | none => (.unknownAgent "" NewState 0, [])

/-- The agent registry built in main.go lines 27-31: processor, enhancer
and formatter, all sharing one provider. -/
def regMain : Registry :=
  [("processor", processorRun), ("enhancer", enhancerRun), ("formatter", formatterRun)]

/-- Modelled from the spec: the Runner lifecycle states (spec.md section
4.3): Idle, then Running after Start, then Stopped after Stop. -/
inductive RunnerStatus where
  | idle
  | running
  | stopped
deriving DecidableEq, Repr

/-- Modelled from the spec: Runner misuse errors (spec.md section 7):
NotRunningError for Emit before Start or after Stop. -/
inductive RunnerErr where
  | notRunning
deriving DecidableEq, Repr

/-- Modelled from the spec: the Runner's lifecycle-relevant data: its
status flag and the queue of accepted events. -/
structure Runner where
  status : RunnerStatus
  queue : List Event
deriving DecidableEq, Repr

/-- Modelled from the spec: `Start(ctx)` transitions the Runner to
Running (spec.md section 4.3). -/
def Runner.start (r : Runner) : Runner := { r with status := .running }

/-- Modelled from the spec: `Emit(event)` validates the Runner is Running
and enqueues the event; otherwise it fails synchronously with
NotRunningError and the event is not enqueued (spec.md sections 4.3, 7). -/
def Runner.emit (r : Runner) (e : Event) : Runner × Option RunnerErr :=
  match r.status with
  | .running => ({ r with queue := r.queue ++ [e] }, none)
  | _ => (r, some .notRunning)

/-- Modelled from the spec: `Stop()` transitions the Runner to Stopped;
no further Emit is accepted (spec.md section 4.3). -/
def Runner.stop (r : Runner) : Runner := { r with status := .stopped }

/-- The event emitted by main.go lines 48-52, with the concrete input "X"
of the spec's scenario (spec.md section 8) in place of the example
sentence. -/
def eventX : Event :=
  ⟨"evt-1", [("input", .vstr "X")], [("route", "processor")]⟩

/-- A deterministic stub provider realising the spec scenario (spec.md
section 8) in which each agent appends its own name to the running
message: on each agent's prompt it returns the prior message extended
with ":" and that agent's name. -/
def stubLlm : ModelProvider := fun p =>
  if p.user = "Process this request and extract key information: X" then
    ({ content := "X:processor" }, none)
  else if p.user = "Enhance this response with additional insights: X:processor" then
    ({ content := "X:processor:enhancer" }, none)
  else if p.user = "Format this response in a clear, professional manner: X:processor:enhancer" then
    ({ content := "X:processor:enhancer:formatter" }, none)
  else
    ({ content := "" }, some (.capability "unexpected prompt"))

/-- An event with the processor route but no "input" field, exercising the
missing-input validation path. -/
def eventNoInput : Event := ⟨"evt-2", [], [("route", "processor")]⟩

/-- The final state of the spec scenario run: formatter output carrying the
fully accumulated message. -/
def finalStateX : State :=
  ⟨[("message", .vstr "X:processor:enhancer:formatter"),
    ("final_response", .vstr "X:processor:enhancer:formatter")], []⟩

/-- ProcessorAgent fails with the validation error, calling nothing, when
the event data has no string-valued "input" (main.go lines 86-89). -/
lemma processorRun_no_input (llm : ModelProvider) (e : Event) (s : State)
    (h : ∀ str, e.getData "input" ≠ some (.vstr str)) :
    processorRun llm e s = (AgentResult.empty, some (.validation "no input provided")) := by
  cases hd : e.getData "input" with
  | none => unfold processorRun; rw [hd]
  | some v =>
    cases v with
    | vstr str => exact absurd hd (h str)
    | vother => unfold processorRun; rw [hd]

/-- EnhancerAgent fails with the validation error when neither "processed"
nor "message" is in the state (main.go lines 115-122). -/
lemma enhancerRun_no_input (llm : ModelProvider) (e : Event) (s : State)
    (h1 : s.get "processed" = none) (h2 : s.get "message" = none) :
    enhancerRun llm e s = (AgentResult.empty, some (.validation "no processed data found")) := by
  unfold enhancerRun
  rw [h1, h2]

/-- FormatterAgent fails with the validation error when neither "enhanced"
nor "message" is in the state (main.go lines 148-155). -/
lemma formatterRun_no_input (llm : ModelProvider) (e : Event) (s : State)
    (h1 : s.get "enhanced" = none) (h2 : s.get "message" = none) :
    formatterRun llm e s = (AgentResult.empty, some (.validation "no enhanced data found")) := by
  unfold formatterRun
  rw [h1, h2]

/-- The dispatch loop performs at most `fuel` further invocations, and the
hop count recorded in its outcome is at most `hops + fuel`. -/
lemma dispatchFrom_bounded (reg : Registry) (llm : ModelProvider) (e : Event) :
    ∀ fuel hops name st,
      ((dispatchFrom reg llm e fuel hops name st).fst.hops ≤ hops + fuel) ∧
      ((dispatchFrom reg llm e fuel hops name st).snd.length ≤ fuel) := by
  intro fuel
  induction fuel with
  | zero =>
    intro hops name st
    simp [dispatchFrom, RunResult.hops]
  | succ f ih =>
    intro hops name st
    rw [dispatchFrom]
    split
    · refine ⟨?_, ?_⟩ <;> simp [RunResult.hops] <;> omega
    · split
      · refine ⟨?_, ?_⟩ <;> simp [RunResult.hops] <;> omega
      · split
        · refine ⟨?_, ?_⟩ <;> simp [RunResult.hops] <;> omega
        · constructor
          · exact le_trans (ih _ _ _).1 (by omega)
          · simpa using Nat.add_le_add_right (ih _ _ _).2 1

/-- When the dispatch loop reports a failure, the recorded hop count equals
the hops already counted plus the invocations performed, and the last
invocation is the failing one: it names the reported agent, its input
state is exactly the state the failure outcome carries, and it was handed
the original event. -/
lemma dispatchFrom_failed_spec (reg : Registry) (llm : ModelProvider) (e : Event) :
    ∀ fuel hops name st nm err st' k invs,
      dispatchFrom reg llm e fuel hops name st = (.failed nm err st' k, invs) →
      k = hops + invs.length ∧
      ∃ pre last, invs = pre ++ [last] ∧
        last.agentName = nm ∧ last.stateIn = st' ∧ last.event = e := by
  intro fuel
  induction fuel with
  | zero =>
    intro hops name st nm err st' k invs h
    simp [dispatchFrom] at h
  | succ f ih =>
    intro hops name st nm err st' k invs h
    rw [dispatchFrom] at h
    split at h
    · simp at h
    · split at h
      · simp only [Prod.mk.injEq, RunResult.failed.injEq] at h
        obtain ⟨⟨h1, h2x, h3, h4⟩, h5⟩ := h
        subst h5
        exact ⟨by simpa using h4.symm, [], ⟨name, e, st⟩, by simp, h1, h3, rfl⟩
      · split at h
        · simp at h
        · rename_i next hnext
          rename_i pairv result hrun xoptv
          rw [Prod.mk.injEq] at h
          obtain ⟨hres, hinvs⟩ := h
          have hfull : dispatchFrom reg llm e f (hops + 1) next result.outputState =
              (.failed nm err st' k,
               (dispatchFrom reg llm e f (hops + 1) next result.outputState).snd) :=
            Prod.ext hres rfl
          obtain ⟨hk, pre, last, hsplit, hnm, hst, hev⟩ :=
            ih (hops + 1) next result.outputState nm err st' k _ hfull
          subst hinvs
          refine ⟨?_, ⟨name, e, st⟩ :: pre, last, ?_, hnm, hst, hev⟩
          · simp only [List.length_cons, hsplit, List.length_append,
              List.length_singleton] at hk ⊢
            omega
          · simp [hsplit]

/-- Every invocation the dispatch loop records was handed the original,
unchanged event. -/
lemma dispatchFrom_event_fixed (reg : Registry) (llm : ModelProvider) (e : Event) :
    ∀ fuel hops name st inv,
      inv ∈ (dispatchFrom reg llm e fuel hops name st).snd → inv.event = e := by
  intro fuel
  induction fuel with
  | zero =>
    intro hops name st inv hmem
    simp [dispatchFrom] at hmem
  | succ f ih =>
    intro hops name st inv hmem
    rw [dispatchFrom] at hmem
    split at hmem
    · simp at hmem
    · split at hmem
      · simp at hmem
        rw [hmem]
      · split at hmem
        · simp at hmem
          rw [hmem]
        · rename_i next hnext
          rename_i pairv result hrun xoptv
          simp only [List.mem_cons] at hmem
          cases hmem with
          | inl hh => rw [hh]
          | inr hh => exact ih (hops + 1) next result.outputState inv hh

/-- A successful ProcessorAgent run produces exactly the state built on
main.go lines 103-108: "processed" and "message" set to the provider
response, and the routing directive set to "enhancer". -/
lemma processorRun_ok (llm : ModelProvider) (e : Event) (s : State)
    (r : AgentResult) (h : processorRun llm e s = (r, none)) :
    ∃ c, r.outputState =
      (((NewState.set "processed" (.vstr c)).set "message" (.vstr c)).setMeta
        RouteMetadataKey "enhancer") := by
  unfold processorRun at h
  split at h
  · split at h
    · simp at h
    · rename_i response hresp
      simp only [Prod.mk.injEq] at h
      exact ⟨response.content, by rw [← h.1]⟩
  · simp at h

/-- A successful EnhancerAgent run produces exactly the state built on
main.go lines 136-141: "enhanced" and "message" set to the provider
response, and the routing directive set to "formatter". -/
lemma enhancerRun_ok (llm : ModelProvider) (e : Event) (s : State)
    (r : AgentResult) (h : enhancerRun llm e s = (r, none)) :
    ∃ c, r.outputState =
      (((NewState.set "enhanced" (.vstr c)).set "message" (.vstr c)).setMeta
        RouteMetadataKey "formatter") := by
  unfold enhancerRun at h
  split at h
  · simp at h
  · split at h
    · simp at h
    · rename_i response hresp
      simp only [Prod.mk.injEq] at h
      exact ⟨response.content, by rw [← h.1]⟩

/-- A successful FormatterAgent run produces exactly the state built on
main.go lines 169-171: "final_response" and "message" set to the provider
response, with no routing directive. -/
lemma formatterRun_ok (llm : ModelProvider) (e : Event) (s : State)
    (r : AgentResult) (h : formatterRun llm e s = (r, none)) :
    ∃ c, r.outputState =
      ((NewState.set "final_response" (.vstr c)).set "message" (.vstr c)) := by
  unfold formatterRun at h
  split at h
  · simp at h
  · split at h
    · simp at h
    · rename_i response hresp
      simp only [Prod.mk.injEq] at h
      exact ⟨response.content, by rw [← h.1]⟩

/-- Whenever ProcessorAgent returns an error, the accompanying result is
the zero value `core.AgentResult\x7b\x7d` (main.go lines 88, 99). -/
lemma processorRun_err (llm : ModelProvider) (e : Event) (s : State)
    (r : AgentResult) (err : AgentErr)
    (h : processorRun llm e s = (r, some err)) : r = AgentResult.empty := by
  unfold processorRun at h
  split at h
  · split at h
    · simp only [Prod.mk.injEq] at h
      exact h.1.symm
    · simp at h
  · simp only [Prod.mk.injEq] at h
    exact h.1.symm

/-- Whenever EnhancerAgent returns an error, the accompanying result is
the zero value (main.go lines 121, 132). -/
lemma enhancerRun_err (llm : ModelProvider) (e : Event) (s : State)
    (r : AgentResult) (err : AgentErr)
    (h : enhancerRun llm e s = (r, some err)) : r = AgentResult.empty := by
  unfold enhancerRun at h
  split at h
  · simp only [Prod.mk.injEq] at h
    exact h.1.symm
  · split at h
    · simp only [Prod.mk.injEq] at h
      exact h.1.symm
    · simp at h

/-- Whenever FormatterAgent returns an error, the accompanying result is
the zero value (main.go lines 154, 164). -/
lemma formatterRun_err (llm : ModelProvider) (e : Event) (s : State)
    (r : AgentResult) (err : AgentErr)
    (h : formatterRun llm e s = (r, some err)) : r = AgentResult.empty := by
  unfold formatterRun at h
  split at h
  · simp only [Prod.mk.injEq] at h
    exact h.1.symm
  · split at h
    · simp only [Prod.mk.injEq] at h
      exact h.1.symm
    · simp at h

/-- EnhancerAgent reaches its provider call exactly when "processed" or
"message" is present in the state. -/
lemma enhancerCalls_ne_nil_iff (e : Event) (s : State) :
    enhancerCalls e s ≠ [] ↔
      ((s.get "processed").isSome ∨ (s.get "message").isSome) := by
  unfold enhancerCalls
  cases h1 : s.get "processed" with
  | some v => simp [h1]
  | none =>
    cases h2 : s.get "message" with
    | some v => simp [h1, h2]
    | none => simp [h1, h2]

/-- FormatterAgent reaches its provider call exactly when "enhanced" or
"message" is present in the state. -/
lemma formatterCalls_ne_nil_iff (e : Event) (s : State) :
    formatterCalls e s ≠ [] ↔
      ((s.get "enhanced").isSome ∨ (s.get "message").isSome) := by
  unfold formatterCalls
  cases h1 : s.get "enhanced" with
  | some v => simp [h1]
  | none =>
    cases h2 : s.get "message" with
    | some v => simp [h1, h2]
    | none => simp [h1, h2]

/-- When "processed" is present, EnhancerAgent uses it, even if "message"
is also present (main.go lines 116-119). -/
lemma enhancerCalls_prefers_processed (e : Event) (s : State) (v : Value)
    (h : s.get "processed" = some v) :
    enhancerCalls e s =
      [{ system := "You are an enhancer agent. Add insights, context, and additional valuable information."
         user := "Enhance this response with additional insights: " ++ v.render }] := by
  unfold enhancerCalls
  rw [h]

/-- When "enhanced" is present, FormatterAgent uses it, even if "message"
is also present (main.go lines 149-152). -/
lemma formatterCalls_prefers_enhanced (e : Event) (s : State) (v : Value)
    (h : s.get "enhanced" = some v) :
    formatterCalls e s =
      [{ system := "You are a formatter agent. Present information in a clear, professional, and well-structured manner."
         user := "Format this response in a clear, professional manner: " ++ v.render }] := by
  unfold formatterCalls
  rw [h]

/-- EnhancerAgent falls back to "message" when "processed" is absent. -/
lemma enhancerCalls_fallback_message (e : Event) (s : State) (v : Value)
    (h1 : s.get "processed" = none) (h2 : s.get "message" = some v) :
    enhancerCalls e s =
      [{ system := "You are an enhancer agent. Add insights, context, and additional valuable information."
         user := "Enhance this response with additional insights: " ++ v.render }] := by
  unfold enhancerCalls
  rw [h1, h2]

/-- FormatterAgent falls back to "message" when "enhanced" is absent. -/
lemma formatterCalls_fallback_message (e : Event) (s : State) (v : Value)
    (h1 : s.get "enhanced" = none) (h2 : s.get "message" = some v) :
    formatterCalls e s =
      [{ system := "You are a formatter agent. Present information in a clear, professional, and well-structured manner."
         user := "Format this response in a clear, professional manner: " ++ v.render }] := by
  unfold formatterCalls
  rw [h1, h2]

/-- ProcessorAgent reads the event only through its data mapping: its
result does not depend on the event id. -/
lemma processorRun_id_irrelevant (llm : ModelProvider) (id1 id2 : String)
    (dat : List (String × Value)) (md : List (String × String)) (s : State) :
    processorRun llm ⟨id1, dat, md⟩ s = processorRun llm ⟨id2, dat, md⟩ s := rfl

/-- EnhancerAgent does not read the event at all. -/
lemma enhancerRun_id_irrelevant (llm : ModelProvider) (e1 e2 : Event) (s : State) :
    enhancerRun llm e1 s = enhancerRun llm e2 s := rfl

/-- FormatterAgent does not read the event at all. -/
lemma formatterRun_id_irrelevant (llm : ModelProvider) (e1 e2 : Event) (s : State) :
    formatterRun llm e1 s = formatterRun llm e2 s := rfl

/-- The outcome of the dispatch loop is unchanged when the event is
replaced by one every registered agent treats the same way. -/
lemma dispatchFrom_fst_congr (reg : Registry) (llm : ModelProvider) (e1 e2 : Event)
    (hag : ∀ nm fn, lookupAgent reg nm = some fn → ∀ s, fn llm e1 s = fn llm e2 s) :
    ∀ fuel hops name st,
      (dispatchFrom reg llm e1 fuel hops name st).fst =
      (dispatchFrom reg llm e2 fuel hops name st).fst := by
  intro fuel
  induction fuel with
  | zero => intro hops name st; rfl
  | succ f ih =>
    intro hops name st
    rw [dispatchFrom, dispatchFrom]
    split
    · rfl
    · rename_i agent hla
      have hrun := hag name agent hla st
      rw [hrun]
      split
      · rfl
      · split
        · rfl
        · rename_i next hnext
          rename_i pairv result hrunv xoptv
          exact ih (hops + 1) next result.outputState

/-- Every agent the main registry resolves is one of the three agents of
main.go lines 27-31. -/
lemma lookupAgent_regMain (nm : String) (fn : AgentFn)
    (h : lookupAgent regMain nm = some fn) :
    fn = processorRun ∨ fn = enhancerRun ∨ fn = formatterRun := by
  simp only [regMain, lookupAgent] at h
  split at h
  · exact Or.inl (Option.some.inj h).symm
  · split at h
    · exact Or.inr (Or.inl (Option.some.inj h).symm)
    · split at h
      · exact Or.inr (Or.inr (Option.some.inj h).symm)
      · simp at h

/-- When the agent of the current hop fails, the dispatch loop stops with
a failure outcome recording that agent, the incoming state, and the single
invocation of this hop. -/
lemma dispatchFrom_first_fails (reg : Registry) (llm : ModelProvider) (e : Event)
    (fuel hops : Nat) (name : String) (st : State) (agent : AgentFn) (err : AgentErr)
    (h1 : lookupAgent reg name = some agent)
    (h2 : agent llm e st = (AgentResult.empty, some err)) :
    dispatchFrom reg llm e (fuel + 1) hops name st =
      (.failed name err st (hops + 1), [⟨name, e, st⟩]) := by
  rw [dispatchFrom]
  simp only [h1, h2]

/-- The Router returns an agent name exactly when the routing-directive
key is present with a non-empty value, and then returns that value. -/
lemma nextAgent_spec (s : State) (n : String) :
    nextAgent s = some n ↔ (s.getMeta RouteMetadataKey = some n ∧ n ≠ "") := by
  unfold nextAgent
  cases hm : s.getMeta RouteMetadataKey with
  | none => simp
  | some name =>
    by_cases hn : name = ""
    · subst hn
      simp
      exact fun h => h.symm
    · constructor
      · intro h
        have hmm : (if name = "" then none else some name) = some n := h
        rw [if_neg hn] at hmm
        have he := Option.some.inj hmm
        subst he
        exact ⟨rfl, hn⟩
      · rintro ⟨hm2, hn2⟩
        have he := Option.some.inj hm2
        subst he
        show (if name = "" then none else some name) = some name
        rw [if_neg hn]

/-- C1: the event with data `input := "X"` and metadata `route :=
"processor"`, run through the chain processor, then enhancer, then
formatter, with a deterministic stub provider under which each agent
appends its own name to the running message, completes in three hops in a
final state whose message is "X:processor:enhancer:formatter". -/
theorem c1_three_agent_chain_scenario :
    (runEvent regMain stubLlm 10 eventX).fst = .completed finalStateX 3 ∧
    finalStateX.get "message" = some (.vstr "X:processor:enhancer:formatter") :=
  ⟨rfl, rfl⟩

/-- C2: the Router returns an agent name exactly when the reserved
routing-directive metadata key is present in the state with a non-empty
value, and then returns that value; after a successful ProcessorAgent run
the directive names "enhancer", after a successful EnhancerAgent run it
names "formatter", and FormatterAgent sets no directive, so the Router
ends the pipeline after it. -/
theorem c2_router_and_directives :
    (∀ (s : State) (n : String),
        nextAgent s = some n ↔ (s.getMeta RouteMetadataKey = some n ∧ n ≠ "")) ∧
    (∀ (llm : ModelProvider) (e : Event) (s : State) (r : AgentResult),
        processorRun llm e s = (r, none) → nextAgent r.outputState = some "enhancer") ∧
    (∀ (llm : ModelProvider) (e : Event) (s : State) (r : AgentResult),
        enhancerRun llm e s = (r, none) → nextAgent r.outputState = some "formatter") ∧
    (∀ (llm : ModelProvider) (e : Event) (s : State) (r : AgentResult),
        formatterRun llm e s = (r, none) → nextAgent r.outputState = none) := by
  refine ⟨nextAgent_spec, ?_, ?_, ?_⟩
  · intro llm e s r h
    obtain ⟨c, hc⟩ := processorRun_ok llm e s r h
    rw [hc]
    rfl
  · intro llm e s r h
    obtain ⟨c, hc⟩ := enhancerRun_ok llm e s r h
    rw [hc]
    rfl
  · intro llm e s r h
    obtain ⟨c, hc⟩ := formatterRun_ok llm e s r h
    rw [hc]
    rfl

/-- Witness for C2 at concrete inputs: the Router honours a directive
written into an empty state, and the concrete successful runs of the three
agents under the stub provider yield the stated directives. -/
theorem c2_router_witness :
    nextAgent (NewState.setMeta RouteMetadataKey "enhancer") = some "enhancer" ∧
    nextAgent (⟨[("message", .vstr "X:processor"), ("processed", .vstr "X:processor")],
                [("route", "enhancer")]⟩ : State) = some "enhancer" ∧
    nextAgent (⟨[("message", .vstr "X:processor:enhancer"),
                 ("enhanced", .vstr "X:processor:enhancer")],
                [("route", "formatter")]⟩ : State) = some "formatter" ∧
    nextAgent (⟨[("message", .vstr "X:processor:enhancer:formatter"),
                 ("final_response", .vstr "X:processor:enhancer:formatter")],
                []⟩ : State) = none :=
  ⟨(c2_router_and_directives.1 (NewState.setMeta RouteMetadataKey "enhancer")
      "enhancer").mpr ⟨rfl, by decide⟩,
   c2_router_and_directives.2.1 stubLlm eventX NewState
     ⟨⟨[("message", .vstr "X:processor"), ("processed", .vstr "X:processor")],
       [("route", "enhancer")]⟩⟩ (by decide),
   c2_router_and_directives.2.2.1 stubLlm eventX
     ⟨[("message", .vstr "X:processor"), ("processed", .vstr "X:processor")],
      [("route", "enhancer")]⟩
     ⟨⟨[("message", .vstr "X:processor:enhancer"),
        ("enhanced", .vstr "X:processor:enhancer")], [("route", "formatter")]⟩⟩ (by decide),
   c2_router_and_directives.2.2.2 stubLlm eventX
     ⟨[("message", .vstr "X:processor:enhancer"),
       ("enhanced", .vstr "X:processor:enhancer")], [("route", "formatter")]⟩
     ⟨⟨[("message", .vstr "X:processor:enhancer:formatter"),
        ("final_response", .vstr "X:processor:enhancer:formatter")], []⟩⟩ (by decide)⟩

/-- C3: when an agent's required input is absent (ProcessorAgent: no
string-valued "input" in the event data; EnhancerAgent: neither
"processed" nor "message" in the state; FormatterAgent: neither "enhanced"
nor "message" in the state), its run returns the validation error with no
provider call made; and a chain whose first agent hits this stops at hop 1
with no further agent invoked. -/
theorem c3_missing_input_validation :
    (∀ (llm : ModelProvider) (e : Event) (s : State),
        (∀ str, e.getData "input" ≠ some (.vstr str)) →
        processorRun llm e s = (AgentResult.empty, some (.validation "no input provided")) ∧
        processorCalls e s = []) ∧
    (∀ (llm : ModelProvider) (e : Event) (s : State),
        s.get "processed" = none → s.get "message" = none →
        enhancerRun llm e s = (AgentResult.empty, some (.validation "no processed data found")) ∧
        enhancerCalls e s = []) ∧
    (∀ (llm : ModelProvider) (e : Event) (s : State),
        s.get "enhanced" = none → s.get "message" = none →
        formatterRun llm e s = (AgentResult.empty, some (.validation "no enhanced data found")) ∧
        formatterCalls e s = []) ∧
    (∀ (llm : ModelProvider) (e : Event) (limit : Nat),
        0 < limit →
        e.getMeta RouteMetadataKey = some "processor" →
        (∀ str, e.getData "input" ≠ some (.vstr str)) →
        runEvent regMain llm limit e =
          (.failed "processor" (.validation "no input provided") NewState 1,
           [⟨"processor", e, NewState⟩])) := by
  refine ⟨?_, ?_, ?_, ?_⟩
  · intro llm e s h
    refine ⟨processorRun_no_input llm e s h, ?_⟩
    cases hd : e.getData "input" with
    | none => unfold processorCalls; rw [hd]
    | some v =>
      cases v with
      | vstr str => exact absurd hd (h str)
      | vother => unfold processorCalls; rw [hd]
  · intro llm e s h1 h2
    exact ⟨enhancerRun_no_input llm e s h1 h2, by unfold enhancerCalls; rw [h1, h2]⟩
  · intro llm e s h1 h2
    exact ⟨formatterRun_no_input llm e s h1 h2, by unfold formatterCalls; rw [h1, h2]⟩
  · intro llm e limit hlim hmeta hinp
    cases limit with
    | zero => exact absurd hlim (by omega)
    | succ f =>
      simp only [runEvent, hmeta]
      exact dispatchFrom_first_fails regMain llm e f 0 "processor" NewState processorRun
        (.validation "no input provided") rfl (processorRun_no_input llm e NewState hinp)

/-- Witness for C3 at concrete inputs: each agent, fed the event and state
missing its input, returns the validation error and calls nothing, and the
chain on the no-input event halts at hop 1. -/
theorem c3_missing_input_witness :
    (processorRun stubLlm eventNoInput NewState =
        (AgentResult.empty, some (.validation "no input provided")) ∧
     processorCalls eventNoInput NewState = []) ∧
    (enhancerRun stubLlm eventNoInput NewState =
        (AgentResult.empty, some (.validation "no processed data found")) ∧
     enhancerCalls eventNoInput NewState = []) ∧
    (formatterRun stubLlm eventNoInput NewState =
        (AgentResult.empty, some (.validation "no enhanced data found")) ∧
     formatterCalls eventNoInput NewState = []) ∧
    runEvent regMain stubLlm 10 eventNoInput =
      (.failed "processor" (.validation "no input provided") NewState 1,
       [⟨"processor", eventNoInput, NewState⟩]) :=
  ⟨c3_missing_input_validation.1 stubLlm eventNoInput NewState
     (fun str h => Option.noConfusion h),
   c3_missing_input_validation.2.1 stubLlm eventNoInput NewState rfl rfl,
   c3_missing_input_validation.2.2.1 stubLlm eventNoInput NewState rfl rfl,
   c3_missing_input_validation.2.2.2 stubLlm eventNoInput 10 (by decide) rfl
     (fun str h => Option.noConfusion h)⟩

/-- C4: every run of an emitted event performs only finitely many hops,
the hop count and the number of agent invocations never exceed the
configured step limit, and an exhausted step budget ends the run with the
RoutingLoopError outcome rather than looping. -/
theorem c4_step_limit_bounds_hops :
    (∀ (reg : Registry) (llm : ModelProvider) (limit : Nat) (e : Event),
        (runEvent reg llm limit e).fst.hops ≤ limit ∧
        (runEvent reg llm limit e).snd.length ≤ limit) ∧
    (∀ (reg : Registry) (llm : ModelProvider) (e : Event) (hops : Nat)
        (name : String) (st : State),
        (dispatchFrom reg llm e 0 hops name st).fst = .routingLoop st hops) := by
  constructor
  · intro reg llm limit e
    unfold runEvent
    cases hm : e.getMeta RouteMetadataKey with
    | none => exact ⟨Nat.zero_le limit, Nat.zero_le limit⟩
    | some start =>
      have h := dispatchFrom_bounded reg llm e limit 0 start NewState
      simpa using h
  · intro reg llm e hops name st
    rfl

/-- C5: when a chain fails at hop k, the outcome carries exactly the state
accumulated by hops 1 through k-1 (the failing hop's input state), so it
remains observable, and exactly k invocations were performed, so no agent
runs for hop k+1. -/
theorem c5_failure_preserves_partial_state :
    ∀ (reg : Registry) (llm : ModelProvider) (limit : Nat) (e : Event)
      (nm : String) (err : AgentErr) (st : State) (k : Nat) (invs : List Invocation),
      runEvent reg llm limit e = (.failed nm err st k, invs) →
      invs.length = k ∧
      ∃ pre last, invs = pre ++ [last] ∧ last.agentName = nm ∧ last.stateIn = st := by
  intro reg llm limit e nm err st k invs h
  unfold runEvent at h
  cases hm : e.getMeta RouteMetadataKey with
  | none =>
    rw [hm] at h
    have h2 : (RunResult.unknownAgent "" NewState 0, ([] : List Invocation)) =
        (.failed nm err st k, invs) := h
    simp at h2
  | some start =>
    rw [hm] at h
    obtain ⟨hk, pre, last, hsplit, hnm, hst, hev⟩ :=
      dispatchFrom_failed_spec reg llm e limit 0 start NewState nm err st k invs h
    exact ⟨by omega, pre, last, hsplit, hnm, hst⟩

/-- Witness for C5: the concrete no-input run fails at hop 1 with one
invocation recorded and the empty pre-failure state observable. -/
theorem c5_failure_witness :
    ([⟨"processor", eventNoInput, NewState⟩] : List Invocation).length = 1 ∧
    ∃ pre last,
      ([⟨"processor", eventNoInput, NewState⟩] : List Invocation) = pre ++ [last] ∧
      last.agentName = "processor" ∧ last.stateIn = NewState :=
  c5_failure_preserves_partial_state regMain stubLlm 10 eventNoInput "processor"
    (.validation "no input provided") NewState 1
    [⟨"processor", eventNoInput, NewState⟩] (by decide)

/-- C6: Emit succeeds, enqueueing the event, exactly when the Runner is
Running; called before Start or after Stop it returns NotRunningError
synchronously and leaves the queue unchanged, so the event is not
processed. -/
theorem c6_emit_only_when_running :
    ∀ (r : Runner) (e : Event),
      ((r.emit e).snd = none ↔ r.status = .running) ∧
      (r.status = .running → (r.emit e).fst.queue = r.queue ++ [e]) ∧
      (r.status ≠ .running → (r.emit e) = (r, some .notRunning)) := by
  intro r e
  rcases r with ⟨status, queue⟩
  cases status <;> simp [Runner.emit]

/-- Witness for C6: an idle (not yet started) Runner rejects Emit with
NotRunningError and keeps its queue; a running Runner enqueues the
event. -/
theorem c6_emit_witness :
    ((Runner.mk .running []).emit eventX).fst.queue = [] ++ [eventX] ∧
    (Runner.mk .idle []).emit eventX = (Runner.mk .idle [], some .notRunning) ∧
    (Runner.mk .stopped []).emit eventX = (Runner.mk .stopped [], some .notRunning) :=
  ⟨(c6_emit_only_when_running ⟨.running, []⟩ eventX).2.1 rfl,
   (c6_emit_only_when_running ⟨.idle, []⟩ eventX).2.2 (by decide),
   (c6_emit_only_when_running ⟨.stopped, []⟩ eventX).2.2 (by decide)⟩

/-- C7: the event is never mutated: every agent invocation of a run is
handed the original event value unchanged (in this pure embedding agents
write only to their fresh output state, and the `Run` signature gives them
no way to alter the event). -/
theorem c7_event_never_mutated :
    ∀ (reg : Registry) (llm : ModelProvider) (limit : Nat) (e : Event)
      (inv : Invocation),
      inv ∈ (runEvent reg llm limit e).snd → inv.event = e := by
  intro reg llm limit e inv h
  unfold runEvent at h
  cases hm : e.getMeta RouteMetadataKey with
  | none =>
    rw [hm] at h
    have h2 : inv ∈ ([] : List Invocation) := h
    simp at h2
  | some start =>
    rw [hm] at h
    exact dispatchFrom_event_fixed reg llm e limit 0 start NewState inv h

/-- Witness for C7: the first invocation of the concrete scenario run
received exactly the emitted event. -/
theorem c7_event_witness :
    (⟨"processor", eventX, NewState⟩ : Invocation).event = eventX :=
  c7_event_never_mutated regMain stubLlm 10 eventX
    ⟨"processor", eventX, NewState⟩ (by decide)

/-- C8: the outcome of running an event through the main agent chain is a
function of the event's data and metadata and the provider's responses
only: two events differing only in their id produce identical outcomes,
and with a deterministic provider re-running the same event data yields
the identical final state. -/
theorem c8_outcome_function_of_data :
    ∀ (llm : ModelProvider) (limit : Nat) (id1 id2 : String)
      (dat : List (String × Value)) (md : List (String × String)),
      (runEvent regMain llm limit ⟨id1, dat, md⟩).fst =
      (runEvent regMain llm limit ⟨id2, dat, md⟩).fst := by
  intro llm limit id1 id2 dat md
  have hag : ∀ nm fn, lookupAgent regMain nm = some fn →
      ∀ s, fn llm ⟨id1, dat, md⟩ s = fn llm ⟨id2, dat, md⟩ s := by
    intro nm fn h s
    rcases lookupAgent_regMain nm fn h with h1 | h1 | h1 <;> subst h1
    · exact processorRun_id_irrelevant llm id1 id2 dat md s
    · exact enhancerRun_id_irrelevant llm _ _ s
    · exact formatterRun_id_irrelevant llm _ _ s
  unfold runEvent
  have h2 : Event.getMeta ⟨id2, dat, md⟩ RouteMetadataKey =
      Event.getMeta ⟨id1, dat, md⟩ RouteMetadataKey := rfl
  rw [h2]
  cases hm : Event.getMeta ⟨id1, dat, md⟩ RouteMetadataKey with
  | none => rfl
  | some start =>
    exact dispatchFrom_fst_congr regMain llm ⟨id1, dat, md⟩ ⟨id2, dat, md⟩ hag
      limit 0 start NewState

/-- C9: EnhancerAgent reaches its provider call exactly when "processed"
or "message" is present (preferring "processed"), FormatterAgent exactly
when "enhanced" or "message" is present (preferring "enhanced"), and every
agent on success writes both its specific output key and "message" with
the same value, so a successor always finds an input. -/
theorem c9_message_fallback :
    (∀ (e : Event) (s : State),
        enhancerCalls e s ≠ [] ↔
          ((s.get "processed").isSome ∨ (s.get "message").isSome)) ∧
    (∀ (e : Event) (s : State) (v : Value), s.get "processed" = some v →
        enhancerCalls e s =
          [{ system := "You are an enhancer agent. Add insights, context, and additional valuable information."
             user := "Enhance this response with additional insights: " ++ v.render }]) ∧
    (∀ (e : Event) (s : State),
        formatterCalls e s ≠ [] ↔
          ((s.get "enhanced").isSome ∨ (s.get "message").isSome)) ∧
    (∀ (e : Event) (s : State) (v : Value), s.get "enhanced" = some v →
        formatterCalls e s =
          [{ system := "You are a formatter agent. Present information in a clear, professional, and well-structured manner."
             user := "Format this response in a clear, professional manner: " ++ v.render }]) ∧
    (∀ (llm : ModelProvider) (e : Event) (s : State) (r : AgentResult),
        processorRun llm e s = (r, none) →
        ∃ c, r.outputState.get "processed" = some (.vstr c) ∧
          r.outputState.get "message" = some (.vstr c)) ∧
    (∀ (llm : ModelProvider) (e : Event) (s : State) (r : AgentResult),
        enhancerRun llm e s = (r, none) →
        ∃ c, r.outputState.get "enhanced" = some (.vstr c) ∧
          r.outputState.get "message" = some (.vstr c)) ∧
    (∀ (llm : ModelProvider) (e : Event) (s : State) (r : AgentResult),
        formatterRun llm e s = (r, none) →
        ∃ c, r.outputState.get "final_response" = some (.vstr c) ∧
          r.outputState.get "message" = some (.vstr c)) := by
  refine ⟨enhancerCalls_ne_nil_iff, enhancerCalls_prefers_processed,
          formatterCalls_ne_nil_iff, formatterCalls_prefers_enhanced, ?_, ?_, ?_⟩
  · intro llm e s r h
    obtain ⟨c, hc⟩ := processorRun_ok llm e s r h
    exact ⟨c, by rw [hc]; rfl, by rw [hc]; rfl⟩
  · intro llm e s r h
    obtain ⟨c, hc⟩ := enhancerRun_ok llm e s r h
    exact ⟨c, by rw [hc]; rfl, by rw [hc]; rfl⟩
  · intro llm e s r h
    obtain ⟨c, hc⟩ := formatterRun_ok llm e s r h
    exact ⟨c, by rw [hc]; rfl, by rw [hc]; rfl⟩

/-- Witness for C9 at concrete inputs: the preference and fallback lemmas
applied to concrete states, and the write-both property applied to the
concrete successful processor run. -/
theorem c9_message_fallback_witness :
    enhancerCalls eventX (NewState.set "processed" (.vstr "P")) =
      [{ system := "You are an enhancer agent. Add insights, context, and additional valuable information."
         user := "Enhance this response with additional insights: P" }] ∧
    formatterCalls eventX (NewState.set "enhanced" (.vstr "E")) =
      [{ system := "You are a formatter agent. Present information in a clear, professional, and well-structured manner."
         user := "Format this response in a clear, professional manner: E" }] ∧
    ∃ c,
      (⟨[("message", .vstr "X:processor"), ("processed", .vstr "X:processor")],
        [("route", "enhancer")]⟩ : State).get "processed" = some (.vstr c) ∧
      (⟨[("message", .vstr "X:processor"), ("processed", .vstr "X:processor")],
        [("route", "enhancer")]⟩ : State).get "message" = some (.vstr c) :=
  ⟨c9_message_fallback.2.1 eventX (NewState.set "processed" (.vstr "P")) (.vstr "P") rfl,
   c9_message_fallback.2.2.2.1 eventX (NewState.set "enhanced" (.vstr "E")) (.vstr "E") rfl,
   c9_message_fallback.2.2.2.2.1 stubLlm eventX NewState
     ⟨⟨[("message", .vstr "X:processor"), ("processed", .vstr "X:processor")],
       [("route", "enhancer")]⟩⟩ (by decide)⟩

/-- C10: whenever an agent's Run returns a non-nil error, the
accompanying AgentResult is the zero value: its output state has no data
fields and carries no routing directive, so a failed hop contributes
nothing to the pipeline's state. -/
theorem c10_zero_result_on_error :
    (∀ (llm : ModelProvider) (e : Event) (s : State) (r : AgentResult) (err : AgentErr),
        processorRun llm e s = (r, some err) →
        r = AgentResult.empty ∧ r.outputState.fields = [] ∧
        nextAgent r.outputState = none) ∧
    (∀ (llm : ModelProvider) (e : Event) (s : State) (r : AgentResult) (err : AgentErr),
        enhancerRun llm e s = (r, some err) →
        r = AgentResult.empty ∧ r.outputState.fields = [] ∧
        nextAgent r.outputState = none) ∧
    (∀ (llm : ModelProvider) (e : Event) (s : State) (r : AgentResult) (err : AgentErr),
        formatterRun llm e s = (r, some err) →
        r = AgentResult.empty ∧ r.outputState.fields = [] ∧
        nextAgent r.outputState = none) := by
  refine ⟨?_, ?_, ?_⟩ <;> intro llm e s r err h
  · have h1 := processorRun_err llm e s r err h
    subst h1
    exact ⟨rfl, rfl, rfl⟩
  · have h1 := enhancerRun_err llm e s r err h
    subst h1
    exact ⟨rfl, rfl, rfl⟩
  · have h1 := formatterRun_err llm e s r err h
    subst h1
    exact ⟨rfl, rfl, rfl⟩

/-- Witness for C10: the concrete failing processor run returns the zero
AgentResult with empty state and no directive. -/
theorem c10_zero_result_witness :
    AgentResult.empty = AgentResult.empty ∧
    AgentResult.empty.outputState.fields = [] ∧
    nextAgent AgentResult.empty.outputState = none :=
  c10_zero_result_on_error.1 stubLlm eventNoInput NewState AgentResult.empty
    (.validation "no input provided") (by decide)

end AgenticPipeline
